import Mathlib

/-!
Verification of the firestarter-demo client against its specification.

The repository is a React client for the firestarter SDK.  The parts the
claims are about are embedded shallowly below:

* the per-account local file index (PipeFileStorage namespaces and the
  listFiles / addFile / removeFile operations, §4.2 of the spec),
* the event traces of the component handlers (UploadCard.handleFileSelect,
  UploadsCard.handleDelete, FilesGallery.handleDelete, loadBalance,
  AuthCard.handleSubmit, FilesGallery.loadFiles),
* the pure helpers isImageFile and formatFileSize.

Every definition mirrors the corresponding source function; definitions
whose code lives in the external firestarter-sdk (not in this repository)
are modelled from the spec and say so in their doc comment.
-/

/-- `UploadResult` / `FileRecord` from the SDK: the record stored in the
local index for one uploaded file (`{fileId, fileName, size, uploadedAt}`). -/
structure FileRecord where
  fileId : String
  fileName : String
  size : Nat
  uploadedAt : Nat
deriving DecidableEq, Repr

/-- The durable key-value store behind PipeFileStorage: one record list per
storage namespace key. -/
def Store : Type := String → List FileRecord

/-- The empty store: every namespace starts with no records. -/
def Store.empty : Store := fun _ => []

namespace PipeFileStorage

/-- `PipeFileStorage.listFiles()` on the namespace `key`. -/
def listFiles (s : Store) (key : String) : List FileRecord := s key

/-- `PipeFileStorage.addFile(record)` on the namespace `key`: appends the
record to that namespace's list and touches no other namespace. -/
def addFile (s : Store) (key : String) (r : FileRecord) : Store :=
  fun k => if k = key then s k ++ [r] else s k

/-- `PipeFileStorage.removeFile(fileId)` on the namespace `key`: removes the
records with that id from that namespace, a no-op when absent. -/
def removeFile (s : Store) (key : String) (fid : String) : Store :=
  fun k => if k = key then (s k).filter (fun r => r.fileId ≠ fid) else s k

end PipeFileStorage

/-- UploadCard's storage namespace (src/unnamed/part_000, lines 12-16):
`new PipeFileStorage(\x7bbacktick\x7dfirestarter_files_$\x7baccount.username\x7d...)`,
the literal prefix "firestarter_files_" followed by the username. -/
def UploadCard.storageKey (username : String) : String :=
  "firestarter_files_" ++ username

/-- Modelled from the spec: the no-argument constructor
`new PipeFileStorage()` used at src/src/components/UploadsCard.tsx:11 lives
in the external firestarter-sdk.  The spec (§6) only keys per-account
entries by username; the default constructor receives no account data, so
its namespace is one fixed key independent of the active account.  The
concrete string is the SDK's default; only its independence from the
username is used in proofs. -/
def defaultStorageKey : String := "firestarter_files"

/-- UploadsCard's storage namespace: the module-level
`const fileStorage = new PipeFileStorage()` is built once with no account
information, so its key is the same for every username. -/
def UploadsCard.storageKey (_username : String) : String := defaultStorageKey

/-- Modelled from the spec: `PipeFileStorage.forAccount(account)` used by
FilesGallery lives in the external firestarter-sdk.  Per spec §6 the index
is "keyed deterministically by username", and it must agree with the
namespace UploadCard writes to (uploads made by UploadCard are listed by
FilesGallery), so it is the same username-keyed namespace. -/
def FilesGallery.storageKey (username : String) : String :=
  "firestarter_files_" ++ username

/-- The observable actions a component handler performs, in order. -/
inductive Ev
  /-- `client.uploadFile(account, file, name, ...)` -/
  | remoteUpload (name : String)
  /-- `client.deleteFile(account, arg)` — `arg` is whatever string the
  handler passes as the name argument -/
  | remoteDelete (arg : String)
  /-- `client.downloadFile(account, name)` -/
  | remoteDownload (name : String)
  /-- `client.getBalance(account)` -/
  | remoteGetBalance
  /-- `fileStorage.addFile(r)` -/
  | idxAdd (r : FileRecord)
  /-- `fileStorage.removeFile(fid)` -/
  | idxRemove (fid : String)
  /-- `window.dispatchEvent(new Event('fileUploaded'))` — the broadcast -/
  | broadcast
  /-- `URL.revokeObjectURL(...)` for the preview handle of `fid` -/
  | revokeHandle (fid : String)
  /-- a component-local `loadFiles()` re-render -/
  | reloadFiles
  /-- a component-local `loadBalance()` re-render -/
  | reloadBalance
  /-- `alert(msg)` — the error is surfaced to the user -/
  | alertErr (msg : String)
  /-- `setError(msg)` — the error is surfaced in the component UI -/
  | setErrorMsg (msg : String)
  /-- `console.error(...)` — logged only, surfaced to nobody -/
  | logErr
  /-- `setUploadedFile(result)` UI state -/
  | uiSetUploaded (r : FileRecord)
  /-- clearing the file input element -/
  | uiResetInput
  /-- `client.login(u, p)` inside App.handleLogin -/
  | netLogin (u p : String)
  /-- `client.createAccount(u, p)` inside App.handleCreateAccount -/
  | netCreate (u p : String)
  /-- `storage.save(acc)` — persisting the account -/
  | persistAccount (u : String)
deriving DecidableEq, Repr

/-- The outcome the remote call hands back to a handler: `ok r` when the
awaited promise resolves with `r`, `fail msg` when it rejects. -/
inductive Remote (α : Type)
  | ok (val : α)
  | fail (msg : String)
deriving DecidableEq, Repr

/-- `UploadCard.handleFileSelect` (src/unnamed/part_000, lines 24-54) for a
selected file, as the ordered trace of its observable actions.  The `try`
block awaits `client.uploadFile`; on resolution it runs
`fileStorage.addFile(result)`, `setUploadedFile(result)`, resets the file
input, then dispatches the `fileUploaded` event; on rejection the `catch`
arm runs `setError`.  (`setUploading` / `setProgress` bookkeeping carries no
information for the claims and is omitted.) -/
def UploadCard.handleFileSelect (fileName : String)
    (outcome : Remote FileRecord) : List Ev :=
  match outcome with
  | .ok result =>
      [Ev.remoteUpload fileName, Ev.idxAdd result, Ev.uiSetUploaded result,
       Ev.uiResetInput, Ev.broadcast]
  | .fail msg =>
      [Ev.remoteUpload fileName, Ev.setErrorMsg msg]

/-- `UploadsCard.handleDelete` (src/src/components/UploadsCard.tsx, lines
72-83): after the confirm dialog it awaits
`client.deleteFile(account, file.fileId)` — note the id, not the name —
then `fileStorage.removeFile(file.fileId)`, `loadFiles()`, `loadBalance()`;
the `catch` arm alerts. -/
def UploadsCard.handleDelete (file : FileRecord) (confirmed : Bool)
    (outcome : Remote Unit) : List Ev :=
  if !confirmed then []
  else
    match outcome with
    | .ok _ =>
        [Ev.remoteDelete file.fileId, Ev.idxRemove file.fileId,
         Ev.reloadFiles, Ev.reloadBalance]
    | .fail msg =>
        [Ev.remoteDelete file.fileId, Ev.alertErr msg]

/-- `FilesGallery.handleDelete` (src/README.md embedded source, lines
146-163): after the confirm dialog it awaits
`client.deleteFile(account, file.fileName)`, then
`fileStorage.removeFile(file.fileId)`, revokes the file's preview object
URL when one exists, then `loadFiles()`; the `catch` arm alerts.
`hasPreview` says whether `imagePreviews[file.fileId]` was set. -/
def FilesGallery.handleDelete (file : FileRecord) (confirmed : Bool)
    (hasPreview : Bool) (outcome : Remote Unit) : List Ev :=
  if !confirmed then []
  else
    match outcome with
    | .ok _ =>
        [Ev.remoteDelete file.fileName, Ev.idxRemove file.fileId]
          ++ (if hasPreview then [Ev.revokeHandle file.fileId] else [])
          ++ [Ev.reloadFiles]
    | .fail msg =>
        [Ev.remoteDelete file.fileName, Ev.alertErr msg]

/-- `loadBalance` (identical in AccountCard.tsx lines 29-38 and
UploadsCard.tsx lines 40-49): awaits `client.getBalance(account)`; on
rejection the `catch` arm only runs `console.error` — the error value is
not rethrown, alerted or put into an error state. -/
def loadBalance (outcome : Remote Unit) : List Ev :=
  match outcome with
  | .ok _ => [Ev.remoteGetBalance]
  | .fail _ => [Ev.remoteGetBalance, Ev.logErr]

/-- `UploadsCard.handleDownload` / `FilesGallery.handleDownload`: awaits
`client.downloadFile(account, file.fileName)`; the `catch` arm alerts. -/
def handleDownload (file : FileRecord) (outcome : Remote Unit) : List Ev :=
  match outcome with
  | .ok _ => [Ev.remoteDownload file.fileName]
  | .fail msg => [Ev.remoteDownload file.fileName, Ev.alertErr msg]

/-- `FilesGallery.generateShareLink` (README source, lines 165-177): awaits
`client.createPublicLink(account, file.fileName)`; the `catch` arm alerts. -/
def generateShareLink (_file : FileRecord) (outcome : Remote Unit) : List Ev :=
  match outcome with
  | .ok _ => []
  | .fail msg => [Ev.alertErr msg]

/-- Whether a trace surfaces an error to its caller / the user: an `alert`
or a `setError`.  `console.error` alone does not surface anything. -/
def surfacesError (tr : List Ev) : Bool :=
  tr.any fun e =>
    match e with
    | Ev.alertErr _ => true
    | Ev.setErrorMsg _ => true
    | _ => false


/-- ASCII lowering of one character, as `toLowerCase` acts on the ASCII
range (filenames in the claims are ASCII). -/
def jsCharToLower (c : Char) : Char :=
  if 'A' ≤ c ∧ c ≤ 'Z' then Char.ofNat (c.toNat + 32) else c

/-- JavaScript `split('.')` on the character list: the dot-separated
components in order.  A JavaScript split never yields an empty array — the
empty string splits to one empty component. -/
def splitDot : List Char → List (List Char)
  | [] => [[]]
  | c :: rest =>
      if c = '.' then [] :: splitDot rest
      else
        match splitDot rest with
        | [] => [[c]]
        | h :: t => (c :: h) :: t

/-- `FilesGallery.isImageFile` (README source, lines 119-122):
`filename.toLowerCase().split('.').pop()` then membership in the image-set
list.  `pop()` is the last component; on a dotless name that is the whole
(lowercased) name. -/
def FilesGallery.isImageFile (filename : String) : Bool :=
  let lowered := filename.data.map jsCharToLower
  let ext := (splitDot lowered).getLast?.getD []
  ["jpg", "jpeg", "png", "gif", "webp", "svg"].contains (String.mk ext)

/-- FilesGallery component state relevant to the preview cache:
the listed files, the `imagePreviews` object (fileId to object-URL handle,
handles numbered as they are created), the fresh-handle allocator standing
for `URL.createObjectURL`, and the set of handles passed so far to
`URL.revokeObjectURL`. -/
structure Gallery where
  files : List FileRecord
  imagePreviews : List (String × Nat)
  nextUrl : Nat
  revokedUrls : List Nat
deriving DecidableEq, Repr

/-- JavaScript object assignment `previews[k] = v`: overwrite in place when
the key exists, otherwise append in insertion order. -/
def objSet (m : List (String × Nat)) (k : String) (v : Nat) :
    List (String × Nat) :=
  if m.any (fun p => p.1 = k) then
    m.map (fun p => if p.1 = k then (k, v) else p)
  else m ++ [(k, v)]

/-- The preview loop of `FilesGallery.loadFiles` (README source, lines
104-115): for each listed file whose name passes `isImageFile`, await
`client.downloadFile`; on success create a fresh object URL and store it
under the file's id; on rejection the per-item `catch` only logs and the
loop continues.  `download name = none` models the rejected promise.
Returns the built `previews` object and the next fresh handle. -/
def buildPreviews (download : String → Option Unit) :
    List FileRecord → List (String × Nat) → Nat → List (String × Nat) × Nat
  | [], previews, next => (previews, next)
  | f :: rest, previews, next =>
      if FilesGallery.isImageFile f.fileName then
        match download f.fileName with
        | some _ =>
            buildPreviews download rest (objSet previews f.fileId next) (next + 1)
        | none => buildPreviews download rest previews next
      else buildPreviews download rest previews next

/-- `FilesGallery.loadFiles` (README source, lines 99-117): reads the
listing, rebuilds the preview object starting from the empty object `{}`,
and `setImagePreviews(previews)` replaces the old object outright — no
`URL.revokeObjectURL` call appears anywhere in `loadFiles`, so
`revokedUrls` is unchanged and the prior generation of handles is simply
dropped. -/
def FilesGallery.loadFiles (g : Gallery) (listing : List FileRecord)
    (download : String → Option Unit) : Gallery :=
  let built := buildPreviews download listing [] g.nextUrl
  { files := listing
    imagePreviews := built.1
    nextUrl := built.2
    revokedUrls := g.revokedUrls }

/-- The positive branch of `formatFileSize` (identical in part_000 lines
56-62, UploadsCard.tsx lines 98-104 and the README source lines 184-190):
`i = Math.floor(Math.log(bytes)/Math.log(1024))` is the floored base-1024
logarithm, i.e. `Nat.log 1024 bytes` for positive `bytes`;
`Math.round(bytes / 1024^i * 100) / 100` is rounding to two decimals, and
an index past the end of the sizes array renders as "undefined" in the
concatenation. -/
def formatFileSizePos (bytes : Nat) : String :=
  let sizes := ["Bytes", "KB", "MB", "GB"]
  let i := Nat.log 1024 bytes
  let q : ℚ := (round ((bytes : ℚ) / 1024 ^ i * 100) : ℚ) / 100
  toString q ++ " " ++ sizes.getD i "undefined"

/-- `formatFileSize`: the explicit `if (bytes === 0) return '0 Bytes'`
guard, then the logarithm/division branch. -/
def formatFileSize (bytes : Nat) : String :=
  if bytes = 0 then "0 Bytes" else formatFileSizePos bytes

/-- The SDK's `ValidationResult` shape `{valid, error?}` as consumed by
AuthCard (`validation.error!` is only read when `valid` is false). -/
structure ValidationResult where
  valid : Bool
  error : String
deriving DecidableEq, Repr

/-- `AuthCard.handleSubmit` (AuthCard.tsx lines 20-75) composed with
App.handleLogin / App.handleCreateAccount (the `onLogin` / `onCreate`
props): validate the username, on failure set the error and return;
validate the password likewise; only then run the network call, which on
success is followed by `storage.save(acc)` and on rejection by the
error-code switch feeding `setError`.  The validators live in the external
SDK and are passed in as parameters; the claims depend only on where the
handler calls them, which is this component's code. -/
def AuthCard.handleSubmit
    (validateUsername validatePassword : String → ValidationResult)
    (isCreating : Bool) (username password : String)
    (netOutcome : Remote Unit) : List Ev :=
  let uv := validateUsername username
  if !uv.valid then [Ev.setErrorMsg uv.error]
  else
    let pv := validatePassword password
    if !pv.valid then [Ev.setErrorMsg pv.error]
    else
      let netEv := if isCreating then Ev.netCreate username password
                   else Ev.netLogin username password
      match netOutcome with
      | .ok _ => [netEv, Ev.persistAccount username]
      | .fail msg => [netEv, Ev.setErrorMsg msg]

/-- Whether an event is a call into RemoteStorageClient (the network). -/
def isNetworkEv : Ev → Bool
  | Ev.remoteUpload _ => true
  | Ev.remoteDelete _ => true
  | Ev.remoteDownload _ => true
  | Ev.remoteGetBalance => true
  | Ev.netLogin _ _ => true
  | Ev.netCreate _ _ => true
  | _ => false

/-- Whether an event writes persisted state (the saved account). -/
def isPersistEv : Ev → Bool
  | Ev.persistAccount _ => true
  | _ => false


/-- The spec's image-extension predicate, following the spec's words: the
"filename extension" is the part after a dot (a dotless name has no
extension), compared case-insensitively against
jpg, jpeg, png, gif, webp, svg.  Declared to compare against the source's
`FilesGallery.isImageFile` for the refinement in C8. -/
def specHasImageExtension (filename : String) : Bool :=
  let parts := splitDot (filename.data.map jsCharToLower)
  if parts.length ≤ 1 then false
  else
    ["jpg", "jpeg", "png", "gif", "webp", "svg"].contains
      (String.mk (parts.getLast?.getD []))

/-!  Helper lemmas shared by the claim theorems.  -/

theorem string_data_append (a b : String) : (a ++ b).data = a.data ++ b.data := by
  cases a
  cases b
  rfl

theorem usernameKey_inj {a b : String}
    (h : "firestarter_files_" ++ a = "firestarter_files_" ++ b) : a = b := by
  have h2 : "firestarter_files_".data ++ a.data
      = "firestarter_files_".data ++ b.data := by
    rw [← string_data_append, ← string_data_append, h]
  have h3 : a.data = b.data := List.append_cancel_left h2
  cases a
  cases b
  exact congrArg String.mk h3

theorem defaultKey_ne_usernameKey (u : String) :
    defaultStorageKey ≠ "firestarter_files_" ++ u := by
  intro h
  have h2 : defaultStorageKey.data.length
      = ("firestarter_files_" ++ u).data.length := by rw [h]
  rw [string_data_append, List.length_append] at h2
  have h3 : defaultStorageKey.data.length = 17 := by decide
  have h4 : "firestarter_files_".data.length = 18 := by decide
  omega

/-- The keys of a JavaScript-object assignment: the old keys, plus the
assigned key. -/
theorem objSet_keys (m : List (String × Nat)) (k : String) (v : Nat) :
    ∀ p ∈ objSet m k v, p.1 ∈ m.map Prod.fst ∨ p.1 = k := by
  intro p hp
  unfold objSet at hp
  by_cases hmem : m.any (fun q => q.1 = k)
  · rw [if_pos hmem] at hp
    obtain ⟨q, hq, hqe⟩ := List.mem_map.mp hp
    by_cases hqk : q.1 = k
    · right
      simp only [if_pos hqk] at hqe
      rw [← hqe]
    · left
      simp only [if_neg hqk] at hqe
      exact List.mem_map.mpr ⟨q, hq, by rw [← hqe]⟩
  · rw [if_neg hmem] at hp
    rcases List.mem_append.mp hp with h | h
    · exact Or.inl (List.mem_map.mpr ⟨p, h, rfl⟩)
    · right
      simp only [List.mem_singleton] at h
      rw [h]

/-- Old keys survive a JavaScript-object assignment. -/
theorem objSet_keys_mono (m : List (String × Nat)) (k : String) (v : Nat)
    (x : String) (hx : x ∈ m.map Prod.fst) :
    x ∈ (objSet m k v).map Prod.fst := by
  unfold objSet
  by_cases hmem : m.any (fun q => q.1 = k)
  · rw [if_pos hmem]
    obtain ⟨q, hq, hqe⟩ := List.mem_map.mp hx
    by_cases hqk : q.1 = k
    · refine List.mem_map.mpr ⟨(k, v), ?_, by rw [← hqe, hqk]⟩
      exact List.mem_map.mpr ⟨q, hq, by simp [hqk]⟩
    · refine List.mem_map.mpr ⟨q, List.mem_map.mpr ⟨q, hq, by simp [hqk]⟩, hqe⟩
  · rw [if_neg hmem, List.map_append]
    exact List.mem_append.mpr (Or.inl hx)

/-- The assigned key is a key afterwards. -/
theorem objSet_key_self (m : List (String × Nat)) (k : String) (v : Nat) :
    k ∈ (objSet m k v).map Prod.fst := by
  unfold objSet
  by_cases hmem : m.any (fun q => q.1 = k)
  · rw [if_pos hmem]
    obtain ⟨q, hq, hqk⟩ := List.any_eq_true.mp hmem
    refine List.mem_map.mpr ⟨(k, v), List.mem_map.mpr ⟨q, hq, ?_⟩, rfl⟩
    rw [if_pos (of_decide_eq_true hqk)]
  · rw [if_neg hmem, List.map_append]
    exact List.mem_append.mpr (Or.inr (by simp))

theorem objSet_keys_sub (m : List (String × Nat)) (k : String) (v : Nat)
    (x : String) (hx : x ∈ (objSet m k v).map Prod.fst) :
    x ∈ m.map Prod.fst ∨ x = k := by
  obtain ⟨q, hq, hqx⟩ := List.mem_map.mp hx
  rcases objSet_keys m k v q hq with h | h
  · exact Or.inl (hqx ▸ h)
  · exact Or.inr (hqx ▸ h)

theorem objSet_append (m : List (String × Nat)) (k : String) (v : Nat)
    (hk : k ∉ m.map Prod.fst) : objSet m k v = m ++ [(k, v)] := by
  unfold objSet
  rw [if_neg]
  intro h
  obtain ⟨q, hq, hqk⟩ := List.any_eq_true.mp h
  exact hk (List.mem_map.mpr ⟨q, hq, of_decide_eq_true hqk⟩)

/-- Every key of the preview object built by the loop comes from the
accumulator or is the id of one of the processed files. -/
theorem buildPreviews_keys (download : String → Option Unit)
    (files : List FileRecord) :
    ∀ (previews : List (String × Nat)) (next : Nat),
      ∀ p ∈ (buildPreviews download files previews next).1,
        p.1 ∈ previews.map Prod.fst ∨ p.1 ∈ files.map FileRecord.fileId := by
  induction files with
  | nil =>
      intro previews next p hp
      exact Or.inl (List.mem_map.mpr ⟨p, hp, rfl⟩)
  | cons f rest ih =>
      intro previews next p hp
      simp only [buildPreviews] at hp
      have step : ∀ pv nx, p ∈ (buildPreviews download rest pv nx).1 →
          p.1 ∈ pv.map Prod.fst ∨ p.1 ∈ (f :: rest).map FileRecord.fileId := by
        intro pv nx hmem
        rcases ih pv nx p hmem with h | h
        · exact Or.inl h
        · exact Or.inr (by rw [List.map_cons]; exact List.mem_cons_of_mem _ h)
      by_cases himg : FilesGallery.isImageFile f.fileName
      · rw [if_pos himg] at hp
        cases hdl : download f.fileName with
        | some u =>
            rw [hdl] at hp
            rcases step _ _ hp with h | h
            · rcases objSet_keys_sub previews f.fileId next p.1 h with h2 | h2
              · exact Or.inl h2
              · exact Or.inr (by rw [List.map_cons, h2]; exact List.mem_cons_self _ _)
            · exact Or.inr h
        | none =>
            rw [hdl] at hp
            exact step _ _ hp
      · rw [if_neg himg] at hp
        exact step _ _ hp

/-- Keys only grow while the preview loop runs. -/
theorem buildPreviews_keys_mono (download : String → Option Unit)
    (files : List FileRecord) :
    ∀ (previews : List (String × Nat)) (next : Nat) (x : String),
      x ∈ previews.map Prod.fst →
      x ∈ (buildPreviews download files previews next).1.map Prod.fst := by
  induction files with
  | nil => intro previews next x hx; exact hx
  | cons f rest ih =>
      intro previews next x hx
      simp only [buildPreviews]
      by_cases himg : FilesGallery.isImageFile f.fileName
      · rw [if_pos himg]
        cases hdl : download f.fileName with
        | some u => exact ih _ _ x (objSet_keys_mono previews f.fileId next x hx)
        | none => exact ih _ _ x hx
      · rw [if_neg himg]
        exact ih _ _ x hx

/-- A listed image file whose download resolves ends up with a preview
handle under its id. -/
theorem buildPreviews_mem (download : String → Option Unit)
    (files : List FileRecord) :
    ∀ (previews : List (String × Nat)) (next : Nat) (f : FileRecord),
      f ∈ files →
      FilesGallery.isImageFile f.fileName = true →
      download f.fileName = some () →
      f.fileId ∈ (buildPreviews download files previews next).1.map Prod.fst := by
  induction files with
  | nil => intro _ _ f hf; exact absurd hf (List.not_mem_nil f)
  | cons g rest ih =>
      intro previews next f hf himg hdl
      simp only [buildPreviews]
      rcases List.mem_cons.mp hf with rfl | hf2
      · rw [if_pos himg, hdl]
        exact buildPreviews_keys_mono download rest _ _ _
          (objSet_key_self previews f.fileId next)
      · by_cases himg2 : FilesGallery.isImageFile g.fileName
        · rw [if_pos himg2]
          cases hdl2 : download g.fileName with
          | some u => exact ih _ _ f hf2 himg hdl
          | none => exact ih _ _ f hf2 himg hdl
        · rw [if_neg himg2]
          exact ih _ _ f hf2 himg hdl

/-- An id gets no preview handle when every listed file carrying it is
either not an image or fails to download. -/
theorem buildPreviews_not_mem (download : String → Option Unit)
    (files : List FileRecord) :
    ∀ (previews : List (String × Nat)) (next : Nat) (i : String),
      i ∉ previews.map Prod.fst →
      (∀ x ∈ files, x.fileId = i →
        FilesGallery.isImageFile x.fileName = false ∨ download x.fileName = none) →
      i ∉ (buildPreviews download files previews next).1.map Prod.fst := by
  induction files with
  | nil => intro previews next i hp _hall; exact hp
  | cons g rest ih =>
      intro previews next i hp hall
      simp only [buildPreviews]
      have hall2 : ∀ x ∈ rest, x.fileId = i →
          FilesGallery.isImageFile x.fileName = false ∨ download x.fileName = none :=
        fun x hx => hall x (List.mem_cons_of_mem g hx)
      by_cases himg : FilesGallery.isImageFile g.fileName
      · rw [if_pos himg]
        cases hdl : download g.fileName with
        | some u =>
            refine ih _ _ i ?_ hall2
            intro hmem
            rcases objSet_keys_sub previews g.fileId next i hmem with h | h
            · exact hp h
            · rcases hall g (List.mem_cons_self g rest) h.symm with hbad | hbad
              · rw [hbad] at himg
                exact Bool.noConfusion himg
              · rw [hdl] at hbad
                exact Option.noConfusion hbad
        | none => exact ih _ _ i hp hall2
      · rw [if_neg himg]
        exact ih _ _ i hp hall2

/-!  Claim theorems.  -/

/-- C1 (counterexample): the claim requires every component that reads or
mutates the index to use a storage namespace keyed by the active account's
username.  UploadsCard's module-level storage (UploadsCard.tsx:11) is built
with no account data: its namespace is the same for two different
usernames, so that component's reads and mutations are not keyed by the
active account's username. -/
theorem C1_counterexample :
    UploadsCard.storageKey "alicealice" = UploadsCard.storageKey "bobbobbob"
    ∧ "alicealice" ≠ "bobbobbob" :=
  ⟨rfl, by decide⟩

/-- C1 (amended): account scoping itself holds.  Records are only ever
added through UploadCard's username-keyed namespace, and for accounts
A ≠ B an add under B's session changes neither of A's read paths —
FilesGallery's username-keyed listFiles nor UploadsCard's
default-namespace listFiles. -/
theorem C1_account_scoping (s : Store) (a b : String) (hab : a ≠ b)
    (r : FileRecord) :
    PipeFileStorage.listFiles
        (PipeFileStorage.addFile s (UploadCard.storageKey b) r)
        (FilesGallery.storageKey a)
      = PipeFileStorage.listFiles s (FilesGallery.storageKey a)
    ∧ PipeFileStorage.listFiles
        (PipeFileStorage.addFile s (UploadCard.storageKey b) r)
        (UploadsCard.storageKey a)
      = PipeFileStorage.listFiles s (UploadsCard.storageKey a) := by
  constructor
  · simp only [PipeFileStorage.listFiles, PipeFileStorage.addFile,
      FilesGallery.storageKey, UploadCard.storageKey]
    rw [if_neg]
    intro h
    exact hab (usernameKey_inj h)
  · simp only [PipeFileStorage.listFiles, PipeFileStorage.addFile,
      UploadsCard.storageKey, UploadCard.storageKey]
    rw [if_neg]
    exact defaultKey_ne_usernameKey b

/-- C1 witness: the scoping theorem applied to the accounts alicealice and
bobbobbob on the empty store. -/
theorem C1_account_scoping_witness :
    PipeFileStorage.listFiles
        (PipeFileStorage.addFile Store.empty (UploadCard.storageKey "bobbobbob")
          ⟨"id1", "photo.png", 4, 0⟩)
        (FilesGallery.storageKey "alicealice")
      = PipeFileStorage.listFiles Store.empty (FilesGallery.storageKey "alicealice")
    ∧ PipeFileStorage.listFiles
        (PipeFileStorage.addFile Store.empty (UploadCard.storageKey "bobbobbob")
          ⟨"id1", "photo.png", 4, 0⟩)
        (UploadsCard.storageKey "alicealice")
      = PipeFileStorage.listFiles Store.empty (UploadsCard.storageKey "alicealice") :=
  C1_account_scoping Store.empty "alicealice" "bobbobbob" (by decide)
    ⟨"id1", "photo.png", 4, 0⟩

/-- C2 (counterexample): a successful, confirmed delete in FilesGallery
removes the record from the index but its trace contains no broadcast
event, refuting the claim that every successful mutating remote operation
emits the broadcast after mutating the index. -/
theorem C2_counterexample :
    Ev.idxRemove "f1" ∈
      FilesGallery.handleDelete ⟨"f1", "photo.png", 100, 0⟩ true true (Remote.ok ())
    ∧ Ev.broadcast ∉
      FilesGallery.handleDelete ⟨"f1", "photo.png", 100, 0⟩ true true (Remote.ok ())
    ∧ Ev.broadcast ∉
      UploadsCard.handleDelete ⟨"f1", "photo.png", 100, 0⟩ true (Remote.ok ()) := by
  decide

/-- C2 (amended): a successful upload mutates the index (addFile) and then
emits the broadcast, in that order; a successful delete mutates the index
(removeFile) and triggers only component-local reloads — neither delete
handler ever emits the broadcast. -/
theorem C2_index_mutation_then_broadcast (name : String) (r f : FileRecord)
    (confirmed hasPreview : Bool) :
    ((UploadCard.handleFileSelect name (Remote.ok r))[1]? = some (Ev.idxAdd r)
      ∧ (UploadCard.handleFileSelect name (Remote.ok r))[4]? = some Ev.broadcast)
    ∧ Ev.broadcast ∉ UploadsCard.handleDelete f confirmed (Remote.ok ())
    ∧ Ev.broadcast ∉ FilesGallery.handleDelete f confirmed hasPreview (Remote.ok ()) := by
  refine ⟨⟨rfl, rfl⟩, ?_, ?_⟩
  · cases confirmed <;> simp [UploadsCard.handleDelete]
  · cases confirmed <;> cases hasPreview <;> simp [FilesGallery.handleDelete]

/-- C3 (counterexample): a gallery holding a live preview handle (handle 0
for record f1) reloads against a listing that no longer contains the
record; after the reload the handle is no longer live, yet it was never
passed to URL.revokeObjectURL — the prior generation is dropped
unreleased, refuting the claim. -/
theorem C3_counterexample :
    (Gallery.mk [⟨"f1", "pic.png", 9, 0⟩] [("f1", 0)] 1 []).imagePreviews
        = [("f1", 0)]
    ∧ (FilesGallery.loadFiles
        (Gallery.mk [⟨"f1", "pic.png", 9, 0⟩] [("f1", 0)] 1 []) []
        (fun _ => some ())).imagePreviews = []
    ∧ (FilesGallery.loadFiles
        (Gallery.mk [⟨"f1", "pic.png", 9, 0⟩] [("f1", 0)] 1 []) []
        (fun _ => some ())).revokedUrls = [] := by
  decide

/-- C3 (amended): a full reload rebuilds the preview cache from scratch,
so every live handle afterwards belongs to a currently-listed record; but
loadFiles never calls URL.revokeObjectURL — the set of revoked handles is
unchanged by the reload, and the prior generation is dropped without being
released. -/
theorem C3_reload_drops_without_release (g : Gallery)
    (listing : List FileRecord) (download : String → Option Unit) :
    (FilesGallery.loadFiles g listing download).revokedUrls = g.revokedUrls
    ∧ ∀ p ∈ (FilesGallery.loadFiles g listing download).imagePreviews,
        p.1 ∈ listing.map FileRecord.fileId := by
  constructor
  · rfl
  · intro p hp
    rcases buildPreviews_keys download listing [] g.nextUrl p hp with h | h
    · simp at h
    · exact h

/-- C4: evaluation at the failing input.  For a file with id "abc123" and
name "photo.png", UploadsCard's delete handler calls
client.deleteFile with "abc123" — the fileId — as the name argument,
while FilesGallery's delete handler passes the fileName "photo.png" as the
external contract deleteFile(name) requires. -/
theorem C4_uploadsCard_delete_passes_fileId :
    UploadsCard.handleDelete ⟨"abc123", "photo.png", 7, 0⟩ true (Remote.ok ())
      = [Ev.remoteDelete "abc123", Ev.idxRemove "abc123",
         Ev.reloadFiles, Ev.reloadBalance]
    ∧ FilesGallery.handleDelete ⟨"abc123", "photo.png", 7, 0⟩ true false (Remote.ok ())
      = [Ev.remoteDelete "photo.png", Ev.idxRemove "abc123", Ev.reloadFiles]
    ∧ "abc123" ≠ "photo.png" := by
  refine ⟨rfl, rfl, by decide⟩

/-- C5: upload atomicity.  On a resolved upload the trace adds the
resulting record to the index (position 1) and then broadcasts
(position 4); on a rejected upload no record is added and no broadcast is
emitted. -/
theorem C5_upload_atomicity (name msg : String) (r : FileRecord) :
    ((UploadCard.handleFileSelect name (Remote.ok r))[1]? = some (Ev.idxAdd r)
      ∧ (UploadCard.handleFileSelect name (Remote.ok r))[4]? = some Ev.broadcast)
    ∧ (∀ r2 : FileRecord,
        Ev.idxAdd r2 ∉ UploadCard.handleFileSelect name (Remote.fail msg))
    ∧ Ev.broadcast ∉ UploadCard.handleFileSelect name (Remote.fail msg) := by
  refine ⟨⟨rfl, rfl⟩, ?_, ?_⟩ <;> simp [UploadCard.handleFileSelect]

/-- C6 (counterexample): a failed balance query (a remote operation) is a
second silent swallow besides the PreviewCache per-item failures: the
catch arm of loadBalance only logs — no error is surfaced to the caller or
the user — refuting the claim that preview per-item failures are the sole
exception. -/
theorem C6_counterexample :
    surfacesError (loadBalance (Remote.fail "Network error")) = false
    ∧ Ev.logErr ∈ loadBalance (Remote.fail "Network error") := by
  decide

/-- C6 (amended): every error from a remote operation is surfaced (by
setError or alert) except two catch-and-log sites: the PreviewCache
per-item materialization failures and the balance query, whose failure is
only logged while the UI falls back to a generic failure indicator. -/
theorem C6_error_surfacing (msg name u p : String) (f : FileRecord)
    (hasPreview isCreating : Bool)
    (vU vP : String → ValidationResult) :
    surfacesError (UploadCard.handleFileSelect name (Remote.fail msg)) = true
    ∧ surfacesError (UploadsCard.handleDelete f true (Remote.fail msg)) = true
    ∧ surfacesError (FilesGallery.handleDelete f true hasPreview (Remote.fail msg)) = true
    ∧ surfacesError (handleDownload f (Remote.fail msg)) = true
    ∧ surfacesError (generateShareLink f (Remote.fail msg)) = true
    ∧ ((vU u).valid = true → (vP p).valid = true →
        surfacesError (AuthCard.handleSubmit vU vP isCreating u p (Remote.fail msg)) = true)
    ∧ surfacesError (loadBalance (Remote.fail msg)) = false := by
  refine ⟨rfl, rfl, rfl, rfl, rfl, ?_, rfl⟩
  intro h1 h2
  cases isCreating <;>
    simp [AuthCard.handleSubmit, h1, h2, surfacesError]

/-- C7: for every login or account-creation attempt, username and password
format validation runs before any network call: when either validator
rejects, the handler's whole trace is the single validation-error message —
no RemoteStorageClient call is made and no persisted state is written. -/
theorem C7_validation_before_network
    (vU vP : String → ValidationResult) (isCreating : Bool)
    (u p : String) (net : Remote Unit)
    (hbad : (vU u).valid = false ∨ (vP p).valid = false) :
    (∃ m, AuthCard.handleSubmit vU vP isCreating u p net = [Ev.setErrorMsg m])
    ∧ (AuthCard.handleSubmit vU vP isCreating u p net).all
        (fun e => !isNetworkEv e && !isPersistEv e) = true := by
  by_cases hu : (vU u).valid
  · have hp2 : (vP p).valid = false := by
      rcases hbad with h | h
      · rw [hu] at h
        exact Bool.noConfusion h
      · exact h
    constructor
    · exact ⟨(vP p).error, by simp [AuthCard.handleSubmit, hu, hp2]⟩
    · simp [AuthCard.handleSubmit, hu, hp2, isNetworkEv, isPersistEv]
  · have hu2 : (vU u).valid = false := by
      cases hcase : (vU u).valid
      · rfl
      · exact absurd hcase hu
    constructor
    · exact ⟨(vU u).error, by simp [AuthCard.handleSubmit, hu2]⟩
    · simp [AuthCard.handleSubmit, hu2, isNetworkEv, isPersistEv]

/-- C7 witness: a username validator that rejects (as the SDK's does for a
short username), so the submit trace is exactly the validation error. -/
theorem C7_validation_before_network_witness :
    (∃ m, AuthCard.handleSubmit
        (fun _ => ⟨false, "Username must be at least 8 characters"⟩)
        (fun _ => ⟨true, ""⟩) false "bob" "Passw0rd!1" (Remote.ok ())
      = [Ev.setErrorMsg m])
    ∧ (AuthCard.handleSubmit
        (fun _ => ⟨false, "Username must be at least 8 characters"⟩)
        (fun _ => ⟨true, ""⟩) false "bob" "Passw0rd!1" (Remote.ok ())).all
        (fun e => !isNetworkEv e && !isPersistEv e) = true :=
  C7_validation_before_network
    (fun _ => ⟨false, "Username must be at least 8 characters"⟩)
    (fun _ => ⟨true, ""⟩) false "bob" "Passw0rd!1" (Remote.ok ())
    (Or.inl rfl)

/-- C8 (counterexample): the claim says a record with no extension never
gets a preview.  The source computes the extension as
split('.').pop(), which for the dotless filename "png" is the whole name:
isImageFile accepts it, and a reload materializes a preview handle for the
record even though the name has no dot-separated extension (the spec-side
predicate rejects it). -/
theorem C8_counterexample :
    specHasImageExtension "png" = false
    ∧ FilesGallery.isImageFile "png" = true
    ∧ (FilesGallery.loadFiles (Gallery.mk [] [] 0 []) [⟨"f1", "png", 3, 0⟩]
        (fun _ => some ())).imagePreviews = [("f1", 0)] := by
  decide

/-- C8 (amended): with every download resolving and distinct file ids, a
record gets a preview handle exactly when isImageFile accepts its
filename, where the compared extension is the last dot-separated component
of the lowercased name — the whole name when it contains no dot. -/
theorem C8_preview_iff_image (g : Gallery) (listing : List FileRecord)
    (f : FileRecord) (hf : f ∈ listing)
    (hids : (listing.map FileRecord.fileId).Nodup) :
    f.fileId ∈
      (FilesGallery.loadFiles g listing (fun _ => some ())).imagePreviews.map Prod.fst
      ↔ FilesGallery.isImageFile f.fileName = true := by
  have hrw : (FilesGallery.loadFiles g listing (fun _ => some ())).imagePreviews
      = (buildPreviews (fun _ => some ()) listing [] g.nextUrl).1 := rfl
  rw [hrw]
  constructor
  · intro hmem
    by_contra hni
    have hfi : FilesGallery.isImageFile f.fileName = false := by
      cases hcase : FilesGallery.isImageFile f.fileName
      · rfl
      · exact absurd hcase hni
    refine absurd hmem
      (buildPreviews_not_mem _ listing [] g.nextUrl f.fileId (by simp) ?_)
    intro x hx hxe
    have hxf : x = f := List.inj_on_of_nodup_map hids hx hf hxe
    rw [hxf]
    exact Or.inl hfi
  · intro himgf
    exact buildPreviews_mem _ listing [] g.nextUrl f hf himgf rfl

/-- C8 witness: the amended theorem at a two-file listing; the image file
Photo.PNG gets a handle (its lowercased extension is png). -/
theorem C8_preview_iff_image_witness :
    (FileRecord.mk "f1" "Photo.PNG" 1 0).fileId ∈
      (FilesGallery.loadFiles (Gallery.mk [] [] 0 [])
        [⟨"f1", "Photo.PNG", 1, 0⟩, ⟨"f2", "notes.txt", 2, 0⟩]
        (fun _ => some ())).imagePreviews.map Prod.fst
      ↔ FilesGallery.isImageFile (FileRecord.mk "f1" "Photo.PNG" 1 0).fileName = true :=
  C8_preview_iff_image (Gallery.mk [] [] 0 [])
    [⟨"f1", "Photo.PNG", 1, 0⟩, ⟨"f2", "notes.txt", 2, 0⟩]
    ⟨"f1", "Photo.PNG", 1, 0⟩ (by decide) (by decide)

/-- C9: per-item preview failure isolation.  The reload always completes
(its file listing is the full input), a listed image file whose download
resolves still receives a handle even when another file's download
rejects, and an id all of whose records fail to download receives no
handle — the failing item is skipped, the rest are materialized. -/
theorem C9_per_item_isolation (g : Gallery) (listing : List FileRecord)
    (download : String → Option Unit) (good bad : FileRecord)
    (hgood : good ∈ listing)
    (hgimg : FilesGallery.isImageFile good.fileName = true)
    (hgdl : download good.fileName = some ())
    (hbad : ∀ x ∈ listing, x.fileId = bad.fileId → download x.fileName = none) :
    (FilesGallery.loadFiles g listing download).files = listing
    ∧ good.fileId ∈
        (FilesGallery.loadFiles g listing download).imagePreviews.map Prod.fst
    ∧ bad.fileId ∉
        (FilesGallery.loadFiles g listing download).imagePreviews.map Prod.fst := by
  refine ⟨rfl, ?_, ?_⟩
  · exact buildPreviews_mem download listing [] g.nextUrl good hgood hgimg hgdl
  · refine buildPreviews_not_mem download listing [] g.nextUrl bad.fileId (by simp) ?_
    intro x hx hxe
    exact Or.inr (hbad x hx hxe)

/-- C9 witness: a listing of ok.png (download resolves) and broken.png
(download rejects): ok.png gets a handle, broken.png does not, and the
reload lists both files. -/
theorem C9_per_item_isolation_witness :
    (FilesGallery.loadFiles (Gallery.mk [] [] 0 [])
        [⟨"g1", "ok.png", 1, 0⟩, ⟨"b1", "broken.png", 2, 0⟩]
        (fun n => if n = "broken.png" then none else some ())).files
      = [⟨"g1", "ok.png", 1, 0⟩, ⟨"b1", "broken.png", 2, 0⟩]
    ∧ (FileRecord.mk "g1" "ok.png" 1 0).fileId ∈
        (FilesGallery.loadFiles (Gallery.mk [] [] 0 [])
          [⟨"g1", "ok.png", 1, 0⟩, ⟨"b1", "broken.png", 2, 0⟩]
          (fun n => if n = "broken.png" then none else some ())).imagePreviews.map Prod.fst
    ∧ (FileRecord.mk "b1" "broken.png" 2 0).fileId ∉
        (FilesGallery.loadFiles (Gallery.mk [] [] 0 [])
          [⟨"g1", "ok.png", 1, 0⟩, ⟨"b1", "broken.png", 2, 0⟩]
          (fun n => if n = "broken.png" then none else some ())).imagePreviews.map Prod.fst :=
  C9_per_item_isolation (Gallery.mk [] [] 0 [])
    [⟨"g1", "ok.png", 1, 0⟩, ⟨"b1", "broken.png", 2, 0⟩]
    (fun n => if n = "broken.png" then none else some ())
    ⟨"g1", "ok.png", 1, 0⟩ ⟨"b1", "broken.png", 2, 0⟩
    (by decide) (by decide) (by decide) (by decide)

/-- C10: the file-size formatter returns "0 Bytes" for input 0 through its
explicit guard, and for every non-zero byte count it takes the
logarithm/division branch — so that branch is only ever evaluated on
strictly positive sizes. -/
theorem C10_format_zero_guard :
    formatFileSize 0 = "0 Bytes"
    ∧ ∀ b : Nat, b ≠ 0 → formatFileSize b = formatFileSizePos b := by
  constructor
  · rfl
  · intro b hb
    simp [formatFileSize, hb]
